import Mathlib

/-!
Shallow embedding of the LinkUp word-chain game's validation and scoring
pipeline (src/lib/datamuse.ts, the validator service, and the game store's
scoring helpers).

Conventions of the embedding:
* JavaScript numbers are modelled as `ℚ` (all scores, heat values and
  frequencies in play are exact decimals, so rational arithmetic matches the
  source's observable behaviour on every input considered here).
* `word.toLowerCase().trim()` is modelled by `jsTrim (jsToLower word)`,
  implemented directly over the character list of the string.
* The asynchronous Datamuse HTTP layer is modelled as an explicit
  `DataSource` record of pure functions: `fetchVerify` is the result list of
  the `/words?sp=…&qe=sp&md=f&max=1` query and `fetchRelated` the result list
  of the `/words?rel_…=…&max=100` query (every caller in the core uses the
  default `max = 100`, so the bound is folded into the record).
  `cachedFetchResult` models the `try … catch` in `cachedFetch` that turns a
  transport failure into an empty result list; `RawSource` is a data source
  whose queries may still fail.
-/

/-- Model of JavaScript `String.prototype.toLowerCase` (ASCII case folding,
which is all the game's words use), mapping `Char.toLower` over the
characters of the string. -/
def jsToLower (s : String) : String := ⟨s.data.map Char.toLower⟩

/-- Model of JavaScript `String.prototype.trim`: drop whitespace characters
from both ends of the string. -/
def jsTrim (s : String) : String :=
  ⟨((s.data.dropWhile Char.isWhitespace).reverse.dropWhile Char.isWhitespace).reverse⟩

/-- Model of JavaScript `String.prototype.startsWith`. -/
def jsStartsWith (s p : String) : Bool := p.data.isPrefixOf s.data

/-- Model of JavaScript `String.prototype.slice(n)` for a non-negative `n`:
drop the first `n` characters. -/
def jsDrop (s : String) (n : ℕ) : String := ⟨s.data.drop n⟩

/-- Model of JavaScript `parseFloat` on the decimal literals Datamuse
frequency tags contain (optional sign, integer digits, optional fractional
digits; trailing non-numeric characters are ignored, as in JS).  `none`
models `NaN`. -/
def parseFloatQ (s : String) : Option ℚ :=
  let cs := s.data
  let neg : Bool × List Char :=
    match cs with
    | c :: rest => if c = ('-') then (true, rest) else if c = ('+') then (false, rest) else (false, cs)
    | [] => (false, [])
  let intDigits := neg.2.takeWhile Char.isDigit
  let rest1 := neg.2.dropWhile Char.isDigit
  let fracDigits : List Char :=
    match rest1 with
    | c :: rest2 => if c = ('.') then rest2.takeWhile Char.isDigit else []
    | [] => []
  if intDigits.isEmpty ∧ fracDigits.isEmpty then none
  else
    let digitsVal : List Char → ℕ := fun l => l.foldl (fun a c => a * 10 + (c.toNat - ('0').toNat)) 0
    let mag : ℚ := (digitsVal intDigits : ℚ) + (digitsVal fracDigits : ℚ) / ((10 : ℚ) ^ fracDigits.length)
    some (if neg.1 then -mag else mag)

/-- One entry of a Datamuse result list (interface `DatamuseWord` in
`datamuse.ts`): the word, its relevance score, and the optional tag list
(which carries `f:{frequency}` tags). -/
structure DatamuseWord where
  word : String
  score : ℚ
  tags : Option (List String)
deriving DecidableEq

/-- The seven relation kinds of `datamuse.ts` (type `RelationType`). -/
inductive RelationType where
  | rel_syn
  | rel_trg
  | rel_jja
  | rel_jjb
  | rel_bga
  | rel_bgb
  | rel_cns
deriving DecidableEq

/-- Priority order for relationship checking (`RELATION_PRIORITY` in
`datamuse.ts`). -/
def RELATION_PRIORITY : List RelationType :=
  [.rel_syn, .rel_trg, .rel_jja, .rel_jjb, .rel_bga, .rel_bgb, .rel_cns]

/-- The Lexical Data Source after the caching/error-recovery layer: each
query yields the (possibly empty) result list the core code sees.
`fetchVerify w` is the body answered for the spelling query of word `w`,
`fetchRelated w rt` the body answered for the relation-`rt` query on `w`. -/
structure DataSource where
  fetchVerify : String → List DatamuseWord
  fetchRelated : String → RelationType → List DatamuseWord

/-- A raw data source whose queries can fail in transport (the `fetch` call
inside `cachedFetch` throwing or returning a non-ok status). -/
structure RawSource where
  fetchVerify : String → Except String (List DatamuseWord)
  fetchRelated : String → RelationType → Except String (List DatamuseWord)

/-- Model of the `try … catch` in `cachedFetch` (`datamuse.ts`): a
successful response yields its data, any error is logged and collapsed to
the empty result list. -/
def cachedFetchResult (response : Except String (List DatamuseWord)) : List DatamuseWord :=
  match response with
  | .ok data => data
  | .error _ => []

/-- The data source obtained by running every query of a raw source through
`cachedFetchResult`. -/
def DataSource.ofRaw (raw : RawSource) : DataSource :=
  { fetchVerify := fun w => cachedFetchResult (raw.fetchVerify w)
    fetchRelated := fun w rt => cachedFetchResult (raw.fetchRelated w rt) }

/-- Model of `verifyWord` (`datamuse.ts`): normalize the word, query the
spelling endpoint, and return the first exact (case-insensitive) match, or
`none`. -/
def verifyWord (ds : DataSource) (word : String) : Option DatamuseWord :=
  let normalizedWord := jsTrim (jsToLower word)
  let results := ds.fetchVerify normalizedWord
  results.find? (fun r => jsToLower r.word == normalizedWord)

/-- Model of `getWordFrequency` (`datamuse.ts`): extract the `f:{n}` tag and
parse its number, returning `0` when tags are absent, no `f:` tag exists, or
the parse yields `NaN`. -/
def getWordFrequency (w : DatamuseWord) : ℚ :=
  match w.tags with
  | none => 0
  | some tags =>
    match tags.find? (fun t => jsStartsWith t ("f:")) with
    | none => 0
    | some freqTag =>
      match parseFloatQ (jsDrop freqTag 2) with
      | none => 0
      | some freq => freq

/-- Model of `getRelatedWords` (`datamuse.ts`): normalize the word and query
the relation endpoint (all core callers use the default `max = 100`, which
is folded into the data source). -/
def getRelatedWords (ds : DataSource) (word : String) (relationType : RelationType) : List DatamuseWord :=
  let normalizedWord := jsTrim (jsToLower word)
  ds.fetchRelated normalizedWord relationType

/-- The `related[0]?.score || 1` computation in `findWordInRelation`: the
head's score, replaced by `1` when it is `0` (the only falsy rational). The
`[]` case is unreachable at its use site (the list was checked non-empty). -/
def topScoreOf (related : List DatamuseWord) : ℚ :=
  match related with
  | [] => 1
  | r0 :: _ => if r0.score = 0 then 1 else r0.score

/-- Result of `findWordInRelation`: the matching entry and the top score of
the same result list. -/
structure FoundRelation where
  word : DatamuseWord
  topScore : ℚ
deriving DecidableEq

/-- Model of `findWordInRelation` (`datamuse.ts`): fetch the related words
of the source word, and return the first entry whose word equals the
normalized target case-insensitively, together with the list's top score;
`none` when the list is empty or has no match. -/
def findWordInRelation (ds : DataSource) (sourceWord targetWord : String) (relationType : RelationType) : Option FoundRelation :=
  let related := getRelatedWords ds sourceWord relationType
  if related.isEmpty then none
  else
    let topScore := topScoreOf related
    let normalizedTarget := jsTrim (jsToLower targetWord)
    match related.find? (fun r => jsToLower r.word == normalizedTarget) with
    | some m => some { word := m, topScore := topScore }
    | none => none

/-- Result of `findBestRelation`; the source field `match` is spelled
`matchWord` because `match` is a reserved word in Lean. -/
structure BestRelation where
  relationType : RelationType
  matchWord : DatamuseWord
  topScore : ℚ
deriving DecidableEq

/-- The loop body of `findBestRelation`: try each relation type of the given
list in order, returning the first hit of `findWordInRelation`. -/
def findBestRelationAux (ds : DataSource) (sourceWord targetWord : String) : List RelationType → Option BestRelation
  | [] => none
  | rt :: rest =>
    match findWordInRelation ds sourceWord targetWord rt with
    | some r => some { relationType := rt, matchWord := r.word, topScore := r.topScore }
    | none => findBestRelationAux ds sourceWord targetWord rest

/-- Model of `findBestRelation` (`datamuse.ts`): check all relation types in
`RELATION_PRIORITY` order and return the first match found. -/
def findBestRelation (ds : DataSource) (sourceWord targetWord : String) : Option BestRelation :=
  findBestRelationAux ds sourceWord targetWord RELATION_PRIORITY

/-- Hub words that add a penalty step (`HUB_WORDS` in the validator). -/
def HUB_WORDS : List String := [("thing"), ("good"), ("man"), ("time"), ("world"), ("go"), ("get")]

/-- The four rejection reason codes of the validator's `ValidationFailure`. -/
inductive RejectReason where
  | not_a_word
  | no_connection
  | same_word
  | already_used
deriving DecidableEq

/-- Model of the validator's `ValidationSuccess` (without the constant
`valid: true` discriminant, which the `ValidationResult` constructor
carries). -/
structure ValidationSuccess where
  word : String
  relationType : RelationType
  relationLabel : String
  heat : ℚ
  creativityStars : ℕ
  isHubWord : Bool
  frequency : ℚ
deriving DecidableEq

/-- Model of the validator's `ValidationFailure` (without the constant
`valid: false` discriminant). -/
structure ValidationFailure where
  word : String
  reason : RejectReason
  message : String
deriving DecidableEq

/-- The validator's `ValidationResult` union. -/
inductive ValidationResult where
  | success (s : ValidationSuccess)
  | failure (f : ValidationFailure)
deriving DecidableEq

/-- The rejection reason of a result, when it is a failure. -/
def ValidationResult.rejectReason : ValidationResult → Option RejectReason
  | .success _ => none
  | .failure f => some f.reason

/-- Human-readable relation labels (`RELATION_LABELS` in the validator). -/
def RELATION_LABELS : RelationType → String
  | .rel_syn => ("Synonym")
  | .rel_trg => ("Association")
  | .rel_jja => ("Property")
  | .rel_jjb => ("Property")
  | .rel_bga => ("Phrase")
  | .rel_bgb => ("Phrase")
  | .rel_cns => ("Slant Link")

/-- Model of `calculateCreativityStars` (validator): thresholds on heat,
then the rarity cap that turns a 3-star rating into 2 stars for an obscure
word (frequency below `0.01`). -/
def calculateCreativityStars (heat frequency : ℚ) : ℕ :=
  let stars : ℕ :=
    if heat > (0.66 : ℚ) then 1
    else if heat ≥ (0.40 : ℚ) then 2
    else 3
  if frequency < (0.01 : ℚ) ∧ stars = 3 then 2 else stars

/-- Model of `isHubWord` (validator): membership of the normalized word in
`HUB_WORDS`. -/
def isHubWord (word : String) : Bool := HUB_WORDS.contains (jsTrim (jsToLower word))

/-- Model of `validateLink` (validator), the main validation function: the
two local checks (same word, already used), then word verification, then
relation resolution, then heat/stars/hub computation.  The used-words check
lower-cases (but does not trim) the chain words, as in the source. -/
def validateLink (ds : DataSource) (previousWord inputWord : String) (usedWords : List String) : ValidationResult :=
  let normalizedInput := jsTrim (jsToLower inputWord)
  let normalizedPrevious := jsTrim (jsToLower previousWord)
  if normalizedInput = normalizedPrevious then
    .failure { word := inputWord, reason := .same_word, message := ("Can\x27t use the same word twice in a row") }
  else if (usedWords.map jsToLower).contains normalizedInput then
    .failure { word := inputWord, reason := .already_used, message := ("This word is already in your chain") }
  else
    match verifyWord ds normalizedInput with
    | none => .failure { word := inputWord, reason := .not_a_word, message := ("Not a valid word") }
    | some wordData =>
      match findBestRelation ds normalizedPrevious normalizedInput with
      | none =>
        .failure { word := inputWord, reason := .no_connection,
                   message := ("No connection found to \"") ++ normalizedPrevious ++ ("\"") }
      | some relation =>
        let heat := relation.matchWord.score / relation.topScore
        let frequency := getWordFrequency wordData
        let creativityStars := calculateCreativityStars heat frequency
        let hubWord := isHubWord normalizedInput
        .success { word := wordData.word
                   relationType := relation.relationType
                   relationLabel := RELATION_LABELS relation.relationType
                   heat := heat
                   creativityStars := creativityStars
                   isHubWord := hubWord
                   frequency := frequency }

/-- Model of `validateFinalLink` (validator): delegate to `validateLink`,
whose `usedWords` parameter defaults to the empty list in the source. -/
def validateFinalLink (ds : DataSource) (currentWord endWord : String) : ValidationResult :=
  validateLink ds currentWord endWord []

/-- Model of the store's `ChainLink` record. -/
structure ChainLink where
  word : String
  relationLabel : String
  creativityStars : ℕ
  heat : ℚ
  isHubWord : Bool
  timestamp : ℕ
deriving DecidableEq

/-- The reducer body of `getMostCreativeLink` (store): keep the running best
link, replacing it when the new link has strictly more stars, or equal stars
and strictly lower heat. -/
def mostCreativeStep (best : Option ChainLink) (link : ChainLink) : Option ChainLink :=
  match best with
  | none => some link
  | some b =>
    if link.creativityStars > b.creativityStars then some link
    else if link.creativityStars = b.creativityStars ∧ link.heat < b.heat then some link
    else some b

/-- Model of the store's `getMostCreativeLink`: `null` on an empty chain,
otherwise `chain.reduce(mostCreativeStep, null)`. -/
def getMostCreativeLink (chain : List ChainLink) : Option ChainLink :=
  if chain.length = 0 then none
  else chain.foldl mostCreativeStep none

/-- The record returned by the store's `calculateScore`. -/
structure Score where
  steps : ℚ
  effectiveSteps : ℚ
  starBonus : ℚ
  finalScore : ℚ
deriving DecidableEq

/-- Model of `Math.round(q * 10) / 10` (JS `Math.round` rounds half towards
positive infinity, which is exactly Mathlib's `round`). -/
def round10 (q : ℚ) : ℚ := ((round (q * 10) : ℤ) : ℚ) / 10

/-- Model of the store's `calculateScore`. -/
def calculateScore (chainLength penaltySteps totalStars : ℚ) : Score :=
  let steps := chainLength
  let effectiveSteps := steps + penaltySteps
  let starBonus := totalStars * (0.5 : ℚ)
  let finalScore := max 0 (effectiveSteps - starBonus)
  { steps := steps
    effectiveSteps := effectiveSteps
    starBonus := starBonus
    finalScore := round10 finalScore }

/-!
Helper predicates and concrete data sources used by the claim theorems.
-/

/-- The target appears (case-insensitively) in the result list of the given
relation kind for the given source word — the membership test
`findWordInRelation` performs. -/
def relationContainsTarget (ds : DataSource) (sourceWord targetWord : String) (rt : RelationType) : Bool :=
  (getRelatedWords ds sourceWord rt).any (fun r => jsToLower r.word == jsTrim (jsToLower targetWord))

/-- Result lists are ordered best match first, as the Datamuse interface
documents: scores never increase along the list. -/
def scoresSortedDesc (l : List DatamuseWord) : Prop :=
  l.Pairwise (fun a b => b.score ≤ a.score)

/-- All relevance scores of the list are positive. -/
def scoresPos (l : List DatamuseWord) : Prop := ∀ w ∈ l, 0 < w.score

/-- A data source every query of which returns no results. -/
def emptySource : DataSource := ⟨fun _ => [], fun _ _ => []⟩

/-- A raw data source every query of which fails in transport. -/
def failingRaw : RawSource := ⟨fun _ => .error ("network"), fun _ _ => .error ("network")⟩

/-- A raw data source whose relation queries all fail in transport while its
spelling queries behave as in the given raw source. -/
def relFailRaw (raw : RawSource) : RawSource :=
  ⟨raw.fetchVerify, fun _ _ => .error ("network")⟩

/-- A concrete data source whose synonym list for the word `a` holds two
entries tied at the top score, the second of which is the verified word
`tie`. -/
def tieSource : DataSource :=
  { fetchVerify := fun w => if w = ("tie") then [⟨("tie"), 10, none⟩] else []
    fetchRelated := fun w rt =>
      if w = ("a") ∧ rt = .rel_syn then [⟨("ace"), 5, none⟩, ⟨("tie"), 5, none⟩] else [] }

/-- The accept result `validateLink tieSource "a" "tie" []` evaluates to. -/
def tieSuccess : ValidationSuccess :=
  { word := ("tie"), relationType := .rel_syn, relationLabel := ("Synonym")
    heat := 1, creativityStars := 1, isHubWord := false, frequency := 0 }

/-- A concrete data source that relates `star` to `sun` both as a synonym
and as a trigger word. -/
def dualSource : DataSource :=
  { fetchVerify := fun _ => []
    fetchRelated := fun w rt =>
      if w = ("sun") ∧ (rt = .rel_syn ∨ rt = .rel_trg) then [⟨("star"), 7, none⟩] else [] }

/-- A concrete three-link chain with stars `[1, 3, 3]` whose two 3-star
links differ in heat. -/
def exampleChain : List ChainLink :=
  [ { word := ("w1"), relationLabel := ("Synonym"), creativityStars := 1, heat := 1, isHubWord := false, timestamp := 0 }
  , { word := ("w2"), relationLabel := ("Phrase"), creativityStars := 3, heat := (0.5 : ℚ), isHubWord := false, timestamp := 0 }
  , { word := ("w3"), relationLabel := ("Phrase"), creativityStars := 3, heat := (0.2 : ℚ), isHubWord := false, timestamp := 0 } ]

/-- The lowest-heat 3-star link of `exampleChain`. -/
def exampleBest : ChainLink :=
  { word := ("w3"), relationLabel := ("Phrase"), creativityStars := 3, heat := (0.2 : ℚ), isHubWord := false, timestamp := 0 }

/-!
Claim theorems.
-/

/-- C1 counterexample: the claim asserts that heat = 0.66 yields creativity
rating 1, but `calculateCreativityStars` uses a strict comparison
(`heat > 0.66`), so heat = 0.66 falls into the middle band and yields
rating 2 (frequency 0.5 keeps the rarity clamp inert). -/
theorem C1_boundary_counterexample :
    calculateCreativityStars (0.66 : ℚ) (0.5 : ℚ) = 2 ∧
    calculateCreativityStars (0.66 : ℚ) (0.5 : ℚ) ≠ 1 := by
  with_unfolding_all decide

/-- C1 amended: for every heat and every frequency at or above the rarity
threshold (so the clamp cannot fire), the rating is 1 for heat > 0.66, 2 for
0.40 ≤ heat ≤ 0.66 and 3 for heat < 0.40; the boundaries land so that heat
= 0.66 gives rating 2 and heat = 0.40 gives rating 2. -/
theorem C1_thresholds (heat frequency : ℚ) (hfreq : (0.01 : ℚ) ≤ frequency) :
    (heat > (0.66 : ℚ) → calculateCreativityStars heat frequency = 1) ∧
    ((0.40 : ℚ) ≤ heat → heat ≤ (0.66 : ℚ) → calculateCreativityStars heat frequency = 2) ∧
    (heat < (0.40 : ℚ) → calculateCreativityStars heat frequency = 3) ∧
    calculateCreativityStars (0.66 : ℚ) frequency = 2 ∧
    calculateCreativityStars (0.40 : ℚ) frequency = 2 := by
  refine ⟨?_, ?_, ?_, ?_, ?_⟩ <;>
    simp only [calculateCreativityStars] <;>
    intros <;>
    split_ifs <;>
    first
      | rfl
      | omega
      | linarith

/-- C1 witness: the amended boundary behaviour at heat = 0.66 with a
frequency above the rarity threshold. -/
theorem C1_thresholds_witness : calculateCreativityStars (0.66 : ℚ) (0.5 : ℚ) = 2 :=
  (C1_thresholds (0.66 : ℚ) (0.5 : ℚ) (by norm_num)).2.2.2.1

/-- C2: for all non-negative inputs, `calculateScore` returns
steps = chainLength, effectiveSteps = chainLength + penaltySteps,
starBonus = totalStars * 0.5 and finalScore = max(0, effectiveSteps −
starBonus) rounded to one decimal; the final score is 0 whenever
effectiveSteps < starBonus, and score(5, 1, 6) is {5, 6, 3.0, 3.0}. -/
theorem C2_calculateScore (cl hp ts : ℚ) (hcl : 0 ≤ cl) (hhp : 0 ≤ hp) (hts : 0 ≤ ts) :
    (calculateScore cl hp ts).steps = cl ∧
    (calculateScore cl hp ts).effectiveSteps = cl + hp ∧
    (calculateScore cl hp ts).starBonus = ts * (0.5 : ℚ) ∧
    (calculateScore cl hp ts).finalScore = round10 (max 0 (cl + hp - ts * (0.5 : ℚ))) ∧
    (cl + hp < ts * (0.5 : ℚ) → (calculateScore cl hp ts).finalScore = 0) ∧
    calculateScore 5 1 6 = { steps := 5, effectiveSteps := 6, starBonus := 3, finalScore := 3 } := by
  refine ⟨rfl, rfl, rfl, rfl, ?_, by with_unfolding_all decide⟩
  intro h
  have hx : cl + hp - ts * (0.5 : ℚ) ≤ 0 := by linarith
  show round10 (max 0 (cl + hp - ts * (0.5 : ℚ))) = 0
  rw [max_eq_left hx]
  simp [round10]

/-- C2 witness: the claim's concrete instance, with the non-negativity
hypotheses discharged at chainLength 5, hubPenaltyCount 1, totalStars 6. -/
theorem C2_calculateScore_witness :
    calculateScore 5 1 6 = { steps := 5, effectiveSteps := 6, starBonus := 3, finalScore := 3 } :=
  (C2_calculateScore 5 1 6 (by norm_num) (by norm_num) (by norm_num)).2.2.2.2.2

/-- C5: the rarity clamp turns a pre-clamp rating of 3 (heat < 0.40) into 2
exactly when frequency < 0.01; ratings 1 and 2 are unaffected by frequency;
and the claim's concrete instances hold (heat 0.10 with frequency 0.005
gives 2, with frequency 0.02 gives 3). -/
theorem C5_rarity_clamp (heat frequency : ℚ) :
    (frequency < (0.01 : ℚ) → heat < (0.40 : ℚ) → calculateCreativityStars heat frequency = 2) ∧
    (heat > (0.66 : ℚ) → calculateCreativityStars heat frequency = 1) ∧
    ((0.40 : ℚ) ≤ heat → heat ≤ (0.66 : ℚ) → calculateCreativityStars heat frequency = 2) ∧
    ((0.01 : ℚ) ≤ frequency → heat < (0.40 : ℚ) → calculateCreativityStars heat frequency = 3) ∧
    calculateCreativityStars (0.10 : ℚ) (0.005 : ℚ) = 2 ∧
    calculateCreativityStars (0.10 : ℚ) (0.02 : ℚ) = 3 := by
  refine ⟨?_, ?_, ?_, ?_, by with_unfolding_all decide, by with_unfolding_all decide⟩ <;>
    simp only [calculateCreativityStars] <;>
    intros <;>
    split_ifs <;>
    first
      | rfl
      | omega
      | linarith
      | tauto

/-- C5 witness: the clamp fires at heat 0.10 with frequency 0.005. -/
theorem C5_rarity_clamp_witness : calculateCreativityStars (0.10 : ℚ) (0.005 : ℚ) = 2 :=
  (C5_rarity_clamp (0.10 : ℚ) (0.005 : ℚ)).1 (by norm_num) (by norm_num)

/-- C6: for every data source, every word and every used-word list,
validating a word against itself is rejected with reason `same_word`
(the normalized candidate equals the normalized previous word), before any
data-source query is consulted — the result is the same for every possible
data source. -/
theorem C6_same_word (ds : DataSource) (w : String) (used : List String) :
    validateLink ds w w used =
      .failure { word := w, reason := .same_word,
                 message := ("Can\x27t use the same word twice in a row") } := by
  simp [validateLink]

/-- C3 counterexample: the claim asserts the used-word comparison is made on
the lower-cased, trimmed form of both sides; but the source only lower-cases
the chain words (`usedWords.map(w => w.toLowerCase())`).  With the chain
word `"cat "` (trailing space) and candidate `"cat"`, the trimmed forms
agree and the candidate differs from the previous word, yet the result is a
`not_a_word` rejection (under the empty data source), not `already_used`. -/
theorem C3_already_used_counterexample :
    jsTrim (jsToLower ("cat")) = jsTrim (jsToLower ("cat ")) ∧
    jsTrim (jsToLower ("cat")) ≠ jsTrim (jsToLower ("dog")) ∧
    validateLink emptySource ("dog") ("cat") [("cat ")] =
      .failure { word := ("cat"), reason := .not_a_word, message := ("Not a valid word") } ∧
    (validateLink emptySource ("dog") ("cat") [("cat ")]).rejectReason ≠
      some RejectReason.already_used := by
  with_unfolding_all decide

/-- C3 amended: the `already_used` rejection fires exactly on the source's
comparison — the candidate's lower-cased trimmed form equals the lower-cased
(but not trimmed) form of some chain word — whenever the same-word check did
not already fire. -/
theorem C3_already_used (ds : DataSource) (prev w : String) (used : List String)
    (hne : jsTrim (jsToLower w) ≠ jsTrim (jsToLower prev))
    (hmem : (used.map jsToLower).contains (jsTrim (jsToLower w)) = true) :
    validateLink ds prev w used =
      .failure { word := w, reason := .already_used,
                 message := ("This word is already in your chain") } := by
  simp only [validateLink, if_neg hne, hmem, if_true]

/-- C3 witness: a candidate differing from the previous word whose
lower-cased form is among the lower-cased chain words is rejected as
`already_used` for any data source. -/
theorem C3_already_used_witness :
    validateLink emptySource ("dog") ("Cat") [("cAt")] =
      .failure { word := ("Cat"), reason := .already_used,
                 message := ("This word is already in your chain") } :=
  C3_already_used emptySource ("dog") ("Cat") [("cAt")] (by decide) (by decide)

/-- Inversion on a rejection of `validateLink`: the reason is one of the
four codes, and an `already_used` reason can only arise when the candidate's
lower-cased trimmed form occurs among the lower-cased used words. -/
lemma validateLink_failure_reason (ds : DataSource) (p i : String) (u : List String)
    (f : ValidationFailure) (h : validateLink ds p i u = .failure f) :
    f.reason = RejectReason.same_word ∨
      (f.reason = RejectReason.already_used ∧
        (u.map jsToLower).contains (jsTrim (jsToLower i)) = true) ∨
      f.reason = RejectReason.not_a_word ∨ f.reason = RejectReason.no_connection := by
  unfold validateLink at h
  dsimp only at h
  split at h
  · injection h with h2; subst h2; exact .inl rfl
  · split at h
    · rename_i hused
      injection h with h2; subst h2; exact .inr (.inl ⟨rfl, hused⟩)
    · split at h
      · injection h with h2; subst h2; exact .inr (.inr (.inl rfl))
      · split at h
        · injection h with h2; subst h2; exact .inr (.inr (.inr rfl))
        · exact absurd h (by simp)

/-- C10: `validateFinalLink` is definitionally `validateLink` with the empty
used-word list (the source's default argument), and therefore can never
produce an `already_used` rejection. -/
theorem C10_final_link (ds : DataSource) (c e : String) :
    validateFinalLink ds c e = validateLink ds c e [] ∧
    ∀ f, validateFinalLink ds c e = .failure f → f.reason ≠ RejectReason.already_used := by
  refine ⟨rfl, ?_⟩
  intro f h hre
  rcases validateLink_failure_reason ds c e [] f h with h1 | ⟨_, hc⟩ | h3 | h4
  · rw [hre] at h1; simp at h1
  · simp at hc
  · rw [hre] at h3; simp at h3
  · rw [hre] at h4; simp at h4

/-- C10 witness: under the empty data source the final-link check of `b`
against `a` is a `not_a_word` rejection, whose reason is not
`already_used`. -/
theorem C10_final_link_witness :
    validateFinalLink emptySource ("a") ("b") = validateLink emptySource ("a") ("b") [] ∧
    ({ word := ("b"), reason := RejectReason.not_a_word,
       message := ("Not a valid word") } : ValidationFailure).reason ≠ RejectReason.already_used :=
  ⟨(C10_final_link emptySource ("a") ("b")).1,
   (C10_final_link emptySource ("a") ("b")).2 _ (by with_unfolding_all decide)⟩

/-- A relation kind yields no match exactly when its result list does not
contain the target (the list being empty is the degenerate case). -/
lemma findWordInRelation_eq_none_iff (ds : DataSource) (s t : String) (rt : RelationType) :
    findWordInRelation ds s t rt = none ↔ relationContainsTarget ds s t rt = false := by
  simp only [findWordInRelation, relationContainsTarget]
  rcases hl : getRelatedWords ds s rt with _ | ⟨r0, rest⟩
  · simp
  · simp only [List.isEmpty_cons, Bool.false_eq_true, if_false]
    rcases hf : (r0 :: rest).find? (fun r => jsToLower r.word == jsTrim (jsToLower t)) with _ | m
    · rw [hf]
      simp only [List.find?_eq_none] at hf
      have hany : (r0 :: rest).any (fun r => jsToLower r.word == jsTrim (jsToLower t)) = false :=
        List.any_eq_false.mpr hf
      simp [hany]
    · rw [hf]
      have hm := List.mem_of_find?_eq_some hf
      have hp := List.find?_some hf
      simp only [Option.some_ne_none, false_iff]
      intro hany
      rw [List.any_eq_false] at hany
      exact hany m hm hp

/-- Elimination for a successful `findWordInRelation`: the returned entry is
the first match of the result list and the returned top score is the list's
top score. -/
lemma findWordInRelation_some_elim (ds : DataSource) (s t : String) (rt : RelationType)
    (r : FoundRelation) (h : findWordInRelation ds s t rt = some r) :
    (getRelatedWords ds s rt).find? (fun x => jsToLower x.word == jsTrim (jsToLower t)) = some r.word ∧
    r.topScore = topScoreOf (getRelatedWords ds s rt) := by
  simp only [findWordInRelation] at h
  split at h
  · exact absurd h (by simp)
  · split at h
    · rename_i m hf
      injection h with h2
      subst h2
      exact ⟨hf, rfl⟩
    · exact absurd h (by simp)

/-- The resolver loop returns no match exactly when every kind of the list
yields no match. -/
lemma findBestRelationAux_eq_none_iff (ds : DataSource) (s t : String) (l : List RelationType) :
    findBestRelationAux ds s t l = none ↔ ∀ rt ∈ l, findWordInRelation ds s t rt = none := by
  induction l with
  | nil => simp [findBestRelationAux]
  | cons rt rest ih =>
    rcases hf : findWordInRelation ds s t rt with _ | r
    · simp [findBestRelationAux, hf, ih]
    · simp [findBestRelationAux, hf]

/-- Elimination for a successful resolver loop: the priority list decomposes
around the returned kind, every earlier kind yields no match, and the
returned kind's match is the one `findWordInRelation` found. -/
lemma findBestRelationAux_some_elim (ds : DataSource) (s t : String) (l : List RelationType)
    (res : BestRelation) (h : findBestRelationAux ds s t l = some res) :
    ∃ pre post, l = pre ++ res.relationType :: post ∧
      (∀ rt ∈ pre, findWordInRelation ds s t rt = none) ∧
      findWordInRelation ds s t res.relationType = some ⟨res.matchWord, res.topScore⟩ := by
  induction l with
  | nil => simp [findBestRelationAux] at h
  | cons rt rest ih =>
    rcases hf : findWordInRelation ds s t rt with _ | r
    · rw [findBestRelationAux, hf] at h
      obtain ⟨pre, post, heq, hpre, hr⟩ := ih h
      refine ⟨rt :: pre, post, by rw [heq]; rfl, ?_, hr⟩
      intro x hx
      rcases List.mem_cons.mp hx with rfl | hx'
      · exact hf
      · exact hpre x hx'
    · rw [findBestRelationAux, hf] at h
      injection h with h2
      subst h2
      exact ⟨[], rest, rfl, by simp, by rw [hf]⟩

/-- Introduction for the resolver loop: if every kind before `rt` yields no
match and `rt` yields one, the loop returns `rt`'s match. -/
lemma findBestRelationAux_of_first (ds : DataSource) (s t : String)
    (pre post : List RelationType) (rt : RelationType) (r : FoundRelation)
    (hpre : ∀ x ∈ pre, findWordInRelation ds s t x = none)
    (hrt : findWordInRelation ds s t rt = some r) :
    findBestRelationAux ds s t (pre ++ rt :: post) =
      some { relationType := rt, matchWord := r.word, topScore := r.topScore } := by
  induction pre with
  | nil => simp [findBestRelationAux, hrt]
  | cons a pre ih =>
    rw [List.cons_append, findBestRelationAux, hpre a (List.mem_cons_self a pre)]
    exact ih (fun x hx => hpre x (List.mem_cons_of_mem a hx))

/-- C4: the Relation Resolver returns `none` exactly when no relation kind's
result list contains the target; on a hit it returns the priority-first
matching kind (every kind strictly earlier in `RELATION_PRIORITY` has no
match), that kind's first matching entry, and the top score of that same
result list; and a synonym-list hit always resolves to the synonym kind —
in particular when the target is also in the trigger list. -/
theorem C4_relation_priority (ds : DataSource) (s t : String) :
    (findBestRelation ds s t = none ↔
      ∀ rt ∈ RELATION_PRIORITY, relationContainsTarget ds s t rt = false) ∧
    (∀ res, findBestRelation ds s t = some res →
      ∃ pre post, RELATION_PRIORITY = pre ++ res.relationType :: post ∧
        (∀ rt ∈ pre, relationContainsTarget ds s t rt = false) ∧
        relationContainsTarget ds s t res.relationType = true ∧
        (getRelatedWords ds s res.relationType).find?
          (fun x => jsToLower x.word == jsTrim (jsToLower t)) = some res.matchWord ∧
        res.topScore = topScoreOf (getRelatedWords ds s res.relationType)) ∧
    (relationContainsTarget ds s t RelationType.rel_syn = true →
      ∃ res, findBestRelation ds s t = some res ∧ res.relationType = RelationType.rel_syn) := by
  refine ⟨?_, ?_, ?_⟩
  · rw [findBestRelation, findBestRelationAux_eq_none_iff]
    constructor
    · intro h rt hrt
      exact (findWordInRelation_eq_none_iff ds s t rt).mp (h rt hrt)
    · intro h rt hrt
      exact (findWordInRelation_eq_none_iff ds s t rt).mpr (h rt hrt)
  · intro res h
    obtain ⟨pre, post, heq, hpre, hr⟩ := findBestRelationAux_some_elim ds s t _ res h
    have hcontains : relationContainsTarget ds s t res.relationType = true := by
      rcases hc : relationContainsTarget ds s t res.relationType with _ | _
      · rw [(findWordInRelation_eq_none_iff ds s t res.relationType).mpr hc] at hr
        cases hr
      · rfl
    obtain ⟨hfind, htop⟩ := findWordInRelation_some_elim ds s t res.relationType _ hr
    exact ⟨pre, post, heq,
      fun rt hrt => (findWordInRelation_eq_none_iff ds s t rt).mp (hpre rt hrt),
      hcontains, hfind, htop⟩
  · intro hsyn
    rcases hf : findWordInRelation ds s t RelationType.rel_syn with _ | r
    · rw [(findWordInRelation_eq_none_iff ds s t RelationType.rel_syn).mp hf] at hsyn
      cases hsyn
    · refine ⟨{ relationType := .rel_syn, matchWord := r.word, topScore := r.topScore }, ?_, rfl⟩
      have : RELATION_PRIORITY =
          [] ++ RelationType.rel_syn ::
            [RelationType.rel_trg, .rel_jja, .rel_jjb, .rel_bga, .rel_bgb, .rel_cns] := rfl
      rw [findBestRelation, this]
      exact findBestRelationAux_of_first ds s t [] _ _ r (by simp) hf

/-- C4 witness: for a source that lists `star` both as a synonym and as a
trigger of `sun`, the resolver reports the synonym kind. -/
theorem C4_relation_priority_witness :
    ∃ res, findBestRelation dualSource ("sun") ("star") = some res ∧
      res.relationType = RelationType.rel_syn :=
  (C4_relation_priority dualSource ("sun") ("star")).2.2 (by with_unfolding_all decide)

/-- Invariant of the `getMostCreativeLink` reducer: folding from a seed link
produces a link of the seen set whose star count is maximal and whose heat
is minimal among the seen links of that star count (the seed counting as
seen). -/
lemma mostCreativeStep_foldl (l : List ChainLink) (b : ChainLink) :
    ∃ c, l.foldl mostCreativeStep (some b) = some c ∧
      (c = b ∨ c ∈ l) ∧
      b.creativityStars ≤ c.creativityStars ∧
      (b.creativityStars = c.creativityStars → c.heat ≤ b.heat) ∧
      (∀ x ∈ l, x.creativityStars ≤ c.creativityStars) ∧
      (∀ x ∈ l, x.creativityStars = c.creativityStars → c.heat ≤ x.heat) := by
  induction l generalizing b with
  | nil => exact ⟨b, rfl, .inl rfl, le_refl _, fun _ => le_refl _, by simp, by simp⟩
  | cons a t ih =>
    simp only [List.foldl_cons]
    by_cases h1 : a.creativityStars > b.creativityStars
    · have hstep : mostCreativeStep (some b) a = some a := by
        simp [mostCreativeStep, h1]
      rw [hstep]
      obtain ⟨c, hc, hmem, hbs, hbh, hall, hallh⟩ := ih a
      refine ⟨c, hc, ?_, ?_, ?_, ?_, ?_⟩
      · rcases hmem with rfl | hm
        · exact .inr (List.mem_cons_self c t)
        · exact .inr (List.mem_cons_of_mem a hm)
      · omega
      · intro he; omega
      · intro x hx
        rcases List.mem_cons.mp hx with rfl | hx'
        · exact hbs
        · exact hall x hx'
      · intro x hx he
        rcases List.mem_cons.mp hx with rfl | hx'
        · exact hbh he
        · exact hallh x hx' he
    · by_cases h2 : a.creativityStars = b.creativityStars ∧ a.heat < b.heat
      · have hstep : mostCreativeStep (some b) a = some a := by
          simp [mostCreativeStep, h1, h2]
        rw [hstep]
        obtain ⟨c, hc, hmem, hbs, hbh, hall, hallh⟩ := ih a
        refine ⟨c, hc, ?_, ?_, ?_, ?_, ?_⟩
        · rcases hmem with rfl | hm
          · exact .inr (List.mem_cons_self c t)
          · exact .inr (List.mem_cons_of_mem a hm)
        · omega
        · intro he
          have := hbh (by omega)
          linarith [h2.2]
        · intro x hx
          rcases List.mem_cons.mp hx with rfl | hx'
          · exact hbs
          · exact hall x hx'
        · intro x hx he
          rcases List.mem_cons.mp hx with rfl | hx'
          · exact hbh he
          · exact hallh x hx' he
      · have hstep : mostCreativeStep (some b) a = some b := by
          simp only [mostCreativeStep]
          rw [if_neg h1, if_neg h2]
        rw [hstep]
        obtain ⟨c, hc, hmem, hbs, hbh, hall, hallh⟩ := ih b
        have hab : a.creativityStars ≤ b.creativityStars := by omega
        refine ⟨c, hc, ?_, hbs, hbh, ?_, ?_⟩
        · rcases hmem with rfl | hm
          · exact .inl rfl
          · exact .inr (List.mem_cons_of_mem a hm)
        · intro x hx
          rcases List.mem_cons.mp hx with rfl | hx'
          · omega
          · exact hall x hx'
        · intro x hx he
          rcases List.mem_cons.mp hx with rfl | hx'
          · have hxb : x.creativityStars = b.creativityStars := by omega
            have hbheat : b.heat ≤ x.heat := by
              by_contra hlt
              exact h2 ⟨hxb, by linarith⟩
            have := hbh (by omega)
            linarith
          · exact hallh x hx' he

/-- C7: `getMostCreativeLink` returns `none` exactly on the empty chain; on
a non-empty chain it returns a member link whose creativity rating is
maximal, and whose heat is minimal among the links tied at that maximal
rating. -/
theorem C7_most_creative :
    getMostCreativeLink [] = none ∧
    (∀ chain : List ChainLink, chain ≠ [] → (getMostCreativeLink chain).isSome = true) ∧
    (∀ chain c, getMostCreativeLink chain = some c →
      c ∈ chain ∧ (∀ l ∈ chain, l.creativityStars ≤ c.creativityStars) ∧
      (∀ l ∈ chain, l.creativityStars = c.creativityStars → c.heat ≤ l.heat)) := by
  refine ⟨rfl, ?_, ?_⟩
  · intro chain hne
    rcases chain with _ | ⟨a, t⟩
    · exact absurd rfl hne
    · obtain ⟨c, hc, -⟩ := mostCreativeStep_foldl t a
      simp only [getMostCreativeLink, List.length_cons, List.foldl_cons]
      rw [if_neg (by omega)]
      have hstep : mostCreativeStep none a = some a := rfl
      rw [hstep, hc]
      rfl
  · intro chain c h
    rcases chain with _ | ⟨a, t⟩
    · simp [getMostCreativeLink] at h
    · simp only [getMostCreativeLink, List.length_cons, List.foldl_cons] at h
      rw [if_neg (by omega)] at h
      have hstep : mostCreativeStep none a = some a := rfl
      rw [hstep] at h
      obtain ⟨c', hc', hmem, hbs, hbh, hall, hallh⟩ := mostCreativeStep_foldl t a
      rw [hc'] at h
      injection h with h2
      subst h2
      refine ⟨?_, ?_, ?_⟩
      · rcases hmem with rfl | hm
        · exact List.mem_cons_self _ _
        · exact List.mem_cons_of_mem a hm
      · intro x hx
        rcases List.mem_cons.mp hx with rfl | hx'
        · exact hbs
        · exact hall x hx'
      · intro x hx he
        rcases List.mem_cons.mp hx with rfl | hx'
        · exact hbh he
        · exact hallh x hx' he

/-- C7 witness: on the concrete chain with stars `[1, 3, 3]`, the selected
link is a member, its rating 3 is maximal, and its heat 0.2 is minimal among
the 3-star links. -/
theorem C7_most_creative_witness :
    exampleBest ∈ exampleChain ∧
    (∀ l ∈ exampleChain, l.creativityStars ≤ exampleBest.creativityStars) ∧
    (∀ l ∈ exampleChain, l.creativityStars = exampleBest.creativityStars →
      exampleBest.heat ≤ l.heat) :=
  C7_most_creative.2.2 exampleChain exampleBest (by with_unfolding_all decide)

/-- C8: the validator has no error path. (1) `cachedFetch` turns every
transport failure into an empty result list. (2) For every raw data source
(each of whose queries may independently fail) and every input,
`validateLink` returns either a typed accept or a typed reject whose reason
is one of the four codes — never a distinct error kind. (3) When every
query fails, validation still returns a typed reject (the failed existence
check cascades into `not_a_word` unless a local check fired first). (4) When
only the relation queries fail, validation still returns a typed reject and
never an accept (the failed relation queries cascade into `no_connection`
unless an earlier check fired). -/
theorem C8_no_error_path :
    (∀ e, cachedFetchResult (Except.error e) = []) ∧
    (∀ (raw : RawSource) (prev input : String) (used : List String),
      (∃ s, validateLink (DataSource.ofRaw raw) prev input used = .success s) ∨
      (∃ f, validateLink (DataSource.ofRaw raw) prev input used = .failure f ∧
        (f.reason = RejectReason.not_a_word ∨ f.reason = RejectReason.no_connection ∨
          f.reason = RejectReason.same_word ∨ f.reason = RejectReason.already_used))) ∧
    (∀ (prev input : String) (used : List String),
      ∃ f, validateLink (DataSource.ofRaw failingRaw) prev input used = .failure f ∧
        (f.reason = RejectReason.same_word ∨ f.reason = RejectReason.already_used ∨
          f.reason = RejectReason.not_a_word)) ∧
    (∀ (raw : RawSource) (prev input : String) (used : List String),
      ∃ f, validateLink (DataSource.ofRaw (relFailRaw raw)) prev input used = .failure f ∧
        (f.reason = RejectReason.same_word ∨ f.reason = RejectReason.already_used ∨
          f.reason = RejectReason.not_a_word ∨ f.reason = RejectReason.no_connection)) := by
  refine ⟨fun e => rfl, ?_, ?_, ?_⟩
  · intro raw prev input used
    rcases h : validateLink (DataSource.ofRaw raw) prev input used with s | f
    · exact .inl ⟨s, rfl⟩
    · refine .inr ⟨f, rfl, ?_⟩
      rcases f with ⟨w, reason, msg⟩
      rcases reason
      · exact .inl rfl
      · exact .inr (.inl rfl)
      · exact .inr (.inr (.inl rfl))
      · exact .inr (.inr (.inr rfl))
  · intro prev input used
    unfold validateLink
    dsimp only
    split
    · exact ⟨_, rfl, .inl rfl⟩
    · split
      · exact ⟨_, rfl, .inr (.inl rfl)⟩
      · have hv : verifyWord (DataSource.ofRaw failingRaw) (jsTrim (jsToLower input)) = none := rfl
        rw [hv]
        exact ⟨_, rfl, .inr (.inr rfl)⟩
  · intro raw prev input used
    unfold validateLink
    dsimp only
    split
    · exact ⟨_, rfl, .inl rfl⟩
    · split
      · exact ⟨_, rfl, .inr (.inl rfl)⟩
      · rcases hv : verifyWord (DataSource.ofRaw (relFailRaw raw)) (jsTrim (jsToLower input)) with _ | wd
        · exact ⟨_, rfl, .inr (.inr (.inl rfl))⟩
        · have hfb : findBestRelation (DataSource.ofRaw (relFailRaw raw))
              (jsTrim (jsToLower prev)) (jsTrim (jsToLower input)) = none := by
            rw [findBestRelation, findBestRelationAux_eq_none_iff]
            intro rt _
            rfl
          rw [hfb]
          exact ⟨_, rfl, .inr (.inr (.inr rfl))⟩

/-- Inversion on an accepted `validateLink`: the accept's heat is the
resolver match's score divided by the top score the resolver reported. -/
lemma validateLink_success_elim (ds : DataSource) (prev input : String) (used : List String)
    (s : ValidationSuccess) (h : validateLink ds prev input used = .success s) :
    ∃ res, findBestRelation ds (jsTrim (jsToLower prev)) (jsTrim (jsToLower input)) = some res ∧
      s.heat = res.matchWord.score / res.topScore := by
  unfold validateLink at h
  dsimp only at h
  split at h
  · exact absurd h (by simp)
  · split at h
    · exact absurd h (by simp)
    · split at h
      · exact absurd h (by simp)
      · split at h
        · exact absurd h (by simp)
        · rename_i wordData hwd relation hfb
          injection h with h2
          subst h2
          exact ⟨relation, hfb, rfl⟩

/-- Heat numerators and denominators are well behaved when the result list
is ordered best first with positive scores: the match's score is positive
and bounded by the reported top score, which is itself positive. -/
lemma findWordInRelation_heat_bounds (ds : DataSource) (s t : String) (rt : RelationType)
    (r : FoundRelation) (h : findWordInRelation ds s t rt = some r)
    (hsort : scoresSortedDesc (getRelatedWords ds s rt))
    (hpos : scoresPos (getRelatedWords ds s rt)) :
    0 < r.word.score ∧ r.word.score ≤ r.topScore ∧ 0 < r.topScore := by
  obtain ⟨hfind, htop⟩ := findWordInRelation_some_elim ds s t rt r h
  have hmem : r.word ∈ getRelatedWords ds s rt := List.mem_of_find?_eq_some hfind
  rcases hl : getRelatedWords ds s rt with _ | ⟨r0, rest⟩
  · rw [hl] at hmem
    simp at hmem
  · rw [hl] at hmem htop
    unfold scoresSortedDesc at hsort
    unfold scoresPos at hpos
    rw [hl] at hsort hpos
    have hr0 : 0 < r0.score := hpos r0 (List.mem_cons_self r0 rest)
    have htop' : r.topScore = r0.score := by
      rw [htop]
      simp only [topScoreOf]
      rw [if_neg hr0.ne']
    have hle : r.word.score ≤ r0.score := by
      rcases List.mem_cons.mp hmem with heq | hm
      · rw [heq]
      · exact (List.pairwise_cons.mp hsort).1 r.word hm
    exact ⟨hpos r.word hmem, htop' ▸ hle, htop' ▸ hr0⟩

/-- C9 amended: for a data source whose result lists are ordered best first
with positive relevance scores (the documented Datamuse interface), the heat
of every accepted link lies in (0, 1], and heat is exactly 1 precisely when
the match's relevance score equals the top score of its result list — which
includes the single-strongest case but also top-score ties. -/
theorem C9_heat_range (ds : DataSource) (prev input : String) (used : List String)
    (s : ValidationSuccess)
    (hsort : ∀ rt, scoresSortedDesc (getRelatedWords ds (jsTrim (jsToLower prev)) rt))
    (hpos : ∀ rt, scoresPos (getRelatedWords ds (jsTrim (jsToLower prev)) rt))
    (hv : validateLink ds prev input used = .success s) :
    (0 < s.heat ∧ s.heat ≤ 1) ∧
    (∀ res, findBestRelation ds (jsTrim (jsToLower prev)) (jsTrim (jsToLower input)) = some res →
      (s.heat = 1 ↔ res.matchWord.score = res.topScore)) := by
  obtain ⟨res, hfb, hheat⟩ := validateLink_success_elim ds prev input used s hv
  have hfb' : findBestRelationAux ds (jsTrim (jsToLower prev)) (jsTrim (jsToLower input))
      RELATION_PRIORITY = some res := hfb
  obtain ⟨pre, post, -, -, hfw⟩ :=
    findBestRelationAux_some_elim ds (jsTrim (jsToLower prev)) (jsTrim (jsToLower input))
      RELATION_PRIORITY res hfb'
  have hb := findWordInRelation_heat_bounds ds (jsTrim (jsToLower prev))
    (jsTrim (jsToLower input)) res.relationType ⟨res.matchWord, res.topScore⟩ hfw
    (hsort res.relationType) (hpos res.relationType)
  refine ⟨?_, ?_⟩
  · rw [hheat]
    exact ⟨div_pos hb.1 hb.2.2, (div_le_one hb.2.2).mpr hb.2.1⟩
  · intro res' hres'
    rw [hfb] at hres'
    injection hres' with h2
    subst h2
    rw [hheat]
    exact div_eq_one_iff_eq hb.2.2.ne'

/-- C9 counterexample: under a well-behaved data source (sorted, positive
scores) whose synonym list for `a` holds `ace` and `tie` both scored 5, the
accepted link for `tie` carries heat exactly 1 even though `tie` is not the
single strongest related word: `ace`, a different word, has a score at least
as high as every entry of the same list. -/
theorem C9_single_strongest_counterexample :
    validateLink tieSource ("a") ("tie") [] = .success tieSuccess ∧
    tieSuccess.heat = 1 ∧
    scoresSortedDesc (getRelatedWords tieSource ("a") RelationType.rel_syn) ∧
    scoresPos (getRelatedWords tieSource ("a") RelationType.rel_syn) ∧
    (∃ other ∈ getRelatedWords tieSource ("a") RelationType.rel_syn,
      other.word ≠ tieSuccess.word ∧
      ∀ v ∈ getRelatedWords tieSource ("a") RelationType.rel_syn, v.score ≤ other.score) := by
  refine ⟨by with_unfolding_all decide, rfl, ?_, ?_, ?_⟩
  · unfold scoresSortedDesc
    with_unfolding_all decide
  · unfold scoresPos
    with_unfolding_all decide
  · with_unfolding_all decide

/-- C9 witness: the amended theorem applied to the accepted `tie` link of
the tie-scored source, discharging the sortedness, positivity and
acceptance hypotheses on concrete data. -/
theorem C9_heat_range_witness :
    (0 < tieSuccess.heat ∧ tieSuccess.heat ≤ 1) ∧
    (∀ res, findBestRelation tieSource (jsTrim (jsToLower ("a"))) (jsTrim (jsToLower ("tie"))) = some res →
      (tieSuccess.heat = 1 ↔ res.matchWord.score = res.topScore)) :=
  C9_heat_range tieSource ("a") ("tie") [] tieSuccess
    (by
      intro rt
      unfold scoresSortedDesc
      rcases rt <;> with_unfolding_all decide)
    (by
      intro rt
      unfold scoresPos
      rcases rt <;> with_unfolding_all decide)
    (by with_unfolding_all decide)
